import Mathlib

/-!
Verification of the jackfruit data platform (Go): CDS async-job client,
acquisition service, object-key builder, run-identifier validation, and the
serving layer's query aggregator and point-store client, shallowly embedded
from the Go sources.
-/

set_option maxRecDepth 4000

namespace Jackfruit

/-- Job states of a CDS job, from `cds/types.go` (`jobState`). -/
inductive JobState where
  | accepted
  | running
  | successful
  | failed
  | rejected
  | dismissed
  deriving DecidableEq, Repr

/-- String value of a job state, as serialized by the CDS API. -/
def JobState.toGoString : JobState → String
  | .accepted => "accepted"
  | .running => "running"
  | .successful => "successful"
  | .failed => "failed"
  | .rejected => "rejected"
  | .dismissed => "dismissed"

/-- `jobResponse` from `cds/types.go` (the asset field is only read via the
results endpoint, modelled separately). -/
structure JobResponse where
  jobID : String
  status : JobState
  deriving DecidableEq, Repr

/-- Go error values occurring in the ingestion and serving code paths.
`wrapped` models `fmt.Errorf("...: %w", err)`; all other constructors are
leaf errors without an `Unwrap` method. -/
inductive GoError where
  | apiError (statusCode : Nat) (message : String)
  | clientError (message : String)
  | jobFailed (jobID : String) (status : JobState)
  | deadlineExceeded
  | validationError (message : String)
  | gridNotFound
  | varNotFound (name : String) (timestamp : Nat) (lat lon : Rat)
  | wrapped (ctx : String) (inner : GoError)
  deriving DecidableEq, Repr

/-- The `Error()` rendering of each error value (from `cds/errors.go`,
`domain` and `fmt.Errorf` call sites). -/
def GoError.message : GoError → String
  | .apiError sc m => "cds: " ++ m ++ " (status " ++ toString sc ++ ")"
  | .clientError m => "cds client: " ++ m
  | .jobFailed id st => "job " ++ id ++ " failed with status: " ++ st.toGoString
  | .deadlineExceeded => "context deadline exceeded"
  | .validationError m => m
  | .gridNotFound => "grid value not found"
  | .varNotFound n ts lat lon =>
      "variable \"" ++ n ++ "\" not found at time: " ++ toString ts ++
        " lat: " ++ toString lat ++ " lon: " ++ toString lon
  | .wrapped c e => c ++ ": " ++ e.message

/-- `errors.Unwrap`: only errors produced with `%w` expose an inner error. -/
def GoError.unwrapOne : GoError → Option GoError
  | .wrapped _ e => some e
  | _ => none

/-- The chain visited by `errors.Is` / `errors.As`: the error itself followed
by its `%w`-wrapped causes. -/
def GoError.causeChain : GoError → List GoError
  | .wrapped c e => .wrapped c e :: e.causeChain
  | e => [e]

/-- Whether an `*apiError` (carrying a remote status code) is reachable from
this error by unwrapping, i.e. whether `errors.As(err, &apiErr)` succeeds. -/
def GoError.apiErrorReachable (e : GoError) : Bool :=
  e.causeChain.any fun x =>
    match x with
    | .apiError _ _ => true
    | _ => false

/-- `storage.ObjectKey` from `ingestion-go/internal/storage/keys.go`. -/
structure ObjectKey where
  Source : String
  Dataset : String
  Date : String
  RunID : String
  Extension : String
  deriving DecidableEq, Repr

/-- `ObjectKey.Key`: `fmt.Sprintf("%s/%s/%s/%s.%s", ...)`. -/
def ObjectKey.Key (k : ObjectKey) : String :=
  k.Source ++ "/" ++ k.Dataset ++ "/" ++ k.Date ++ "/" ++ k.RunID ++ "." ++ k.Extension

/-- `Client.waitForCompletion` from `cds/client.go`, driven by the sequence of
status-endpoint responses the deadline leaves room for: each list element is
one `apiGetJob` outcome, and exhausting the list is the poll deadline firing
(`ctx.Done()` before the next tick). The `switch` on `job.Status` returns the
job on `successful`, fails on `failed` or `rejected`, and keeps polling in
every other case. -/
def waitForCompletion (requestID : String) :
    List (Except GoError JobResponse) → Except GoError JobResponse
  | [] => .error .deadlineExceeded
  | poll :: rest =>
    match poll with
    | .error e => .error e
    | .ok job =>
      match job.status with
      | .successful => .ok job
      | .failed => .error (.jobFailed requestID .failed)
      | .rejected => .error (.jobFailed requestID .rejected)
      | _ => waitForCompletion requestID rest

/-- `Client.toClientError` from `cds/client.go`: builds a `ClientError` whose
message is `fmt.Sprintf("%s: %v", context, err)`; the inner error value is not
stored. -/
def toClientError (context : String) (e : GoError) : GoError :=
  .clientError (context ++ ": " ++ e.message)

/-- The asset descriptor returned by the results endpoint
(`resultResponse.Asset.Value` in `cds/types.go`). -/
structure AssetValue where
  assetType : String
  href : String
  deriving DecidableEq, Repr

/-- Outcomes of the four HTTP round trips `fetchInternal` composes, one call
each: submission, the successive status polls, the results lookup and the
asset download. -/
structure CdsEnv where
  submit : Except GoError JobResponse
  polls : List (Except GoError JobResponse)
  results : String → Except GoError AssetValue
  download : String → Except GoError String

/-- `Client.fetchInternal` from `cds/client.go`: submit, poll to completion,
get results, download; every failing step is passed through `toClientError`
with a step-identifying context string. -/
def fetchInternal (env : CdsEnv) : Except GoError String :=
  match env.submit with
  | .error e => .error (toClientError "failed to submit execute request" e)
  | .ok job =>
    match waitForCompletion job.jobID env.polls with
    | .error e => .error (toClientError "failed to wait for job completion" e)
    | .ok completedJob =>
      match env.results completedJob.jobID with
      | .error e => .error (toClientError "failed to get job results" e)
      | .ok rr =>
        match env.download rr.href with
        | .error e => .error (toClientError "failed to download asset" e)
        | .ok assetBody => .ok assetBody

/-- `ingestion.FetchResult`: the downloaded stream plus provenance fields. -/
structure FetchResult where
  Body : String
  Source : String
  Extension : String
  deriving DecidableEq, Repr

/-- `Client.Fetch` from `cds/client.go`: runs `fetchInternal` and attaches the
hardcoded provenance `Source: "ads"`, `Extension: "grib"`. -/
def Client.Fetch (env : CdsEnv) : Except GoError FetchResult :=
  match fetchInternal env with
  | .error e => .error e
  | .ok body => .ok { Body := body, Source := "ads", Extension := "grib" }

/-- A calendar date as carried by `time.Time` values in the ingestion code. -/
structure GoDate where
  year : Nat
  month : Nat
  day : Nat
  deriving DecidableEq, Repr

/-- Zero-padding to two digits, as in Go's `Format("01")` / `Format("02")`. -/
def pad2 (n : Nat) : String :=
  if n < 10 then "0" ++ toString n else toString n

/-- Zero-padding to four digits, as in Go's `Format("2006")`. -/
def pad4 (n : Nat) : String :=
  if n < 10 then "000" ++ toString n
  else if n < 100 then "00" ++ toString n
  else if n < 1000 then "0" ++ toString n
  else toString n

/-- Go's `Date.Format("2006-01-02")`. -/
def GoDate.format (d : GoDate) : String :=
  pad4 d.year ++ "-" ++ pad2 d.month ++ "-" ++ pad2 d.day

/-- `camsInputs` from `cds/types.go` (JSON field names in comments). -/
structure CamsInputs where
  varNames : List String
  model : List String
  level : List String
  date : List String
  analysisType : List String
  time : List String
  leadTimeHour : List String
  dataFormat : String
  deriving DecidableEq, Repr

/-- `camsRequest` from `cds/types.go`. -/
structure CamsRequestBody where
  inputs : CamsInputs
  deriving DecidableEq, Repr

/-- `CAMSRequest` from `cds/types.go`; the analysis/forecast selector is a Go
string type. -/
structure CAMSRequest where
  Date : GoDate
  AnalysisForecast : String
  deriving DecidableEq, Repr

/-- `CAMSRequest.Payload` from `cds/types.go`: the request body sent to the
remote API, with `data_format` fixed to `"netcdf_zip"` in both variants and
`nil` for an unknown variant. -/
def CAMSRequest.Payload (r : CAMSRequest) : Option CamsRequestBody :=
  if r.AnalysisForecast = "analysis" then
    some ⟨⟨["particulate_matter_2.5um", "particulate_matter_10um"],
      ["ensemble"], ["0"], [r.Date.format ++ "/" ++ r.Date.format],
      ["analysis"], ["00:00", "04:00", "08:00", "12:00", "16:00", "20:00"],
      ["0"], "netcdf_zip"⟩⟩
  else if r.AnalysisForecast = "forecast" then
    some ⟨⟨["particulate_matter_2.5um", "particulate_matter_10um"],
      ["ensemble"], ["0"], [r.Date.format ++ "/" ++ r.Date.format],
      ["forecast"], ["00:00"],
      ["0", "4", "8", "12", "16", "20", "24", "28", "32", "36", "40", "44", "48"],
      "netcdf_zip"⟩⟩
  else none

/-- Hex digit value of one byte, per `xvalues` in google/uuid. -/
def hexVal (b : Nat) : Option Nat :=
  if 48 ≤ b ∧ b ≤ 57 then some (b - 48)
  else if 97 ≤ b ∧ b ≤ 102 then some (b - 87)
  else if 65 ≤ b ∧ b ≤ 70 then some (b - 55)
  else none

/-- `xtob` from google/uuid: two hex bytes to one byte value. -/
def xtob (b1 b2 : Nat) : Option Nat :=
  match hexVal b1, hexVal b2 with
  | some h, some l => some (16 * h + l)
  | _, _ => none

/-- Byte at index `i`; all uses are length-guarded as in the Go source. -/
def byteAt (s : List Nat) (i : Nat) : Nat := s.getD i 0

/-- Collect the 16 UUID bytes from hex pairs at the given start positions. -/
def parseHexPositions (s : List Nat) (ps : List Nat) : Option (List Nat) :=
  ps.mapM fun x => xtob (byteAt s x) (byteAt s (x + 1))

/-- Start positions of the 16 hex pairs in the canonical 36-byte form, from
the position table in google/uuid `Parse`. -/
def canonicalPositions : List Nat :=
  [0, 2, 4, 6, 9, 11, 14, 16, 19, 21, 24, 26, 28, 30, 32, 34]

/-- Start positions of the 16 hex pairs in the 32-byte dashless form. -/
def compactPositions : List Nat :=
  [0, 2, 4, 6, 8, 10, 12, 14, 16, 18, 20, 22, 24, 26, 28, 30]

/-- ASCII lower-casing of one byte (`strings.EqualFold` on the ASCII urn
prefix). -/
def toLowerByte (b : Nat) : Nat :=
  if 65 ≤ b ∧ b ≤ 90 then b + 32 else b

/-- The bytes of `"urn:uuid:"`. -/
def urnUuidBytes : List Nat := [117, 114, 110, 58, 117, 117, 105, 100, 58]

/-- The canonical-form tail of google/uuid `Parse`: dashes at offsets 8, 13,
18, 23, then the 16 hex pairs. -/
def parseCanonical (s : List Nat) : Except String (List Nat) :=
  if byteAt s 8 = 45 ∧ byteAt s 13 = 45 ∧ byteAt s 18 = 45 ∧ byteAt s 23 = 45 then
    match parseHexPositions s canonicalPositions with
    | some u => .ok u
    | none => .error "invalid UUID format"
  else .error "invalid UUID format"

/-- google/uuid `Parse` over the string's bytes: accepts the 36-byte
canonical form, the 45-byte urn form, the 38-byte braced form (only the first
byte is stripped; neither brace is checked) and the 32-byte dashless form. -/
def uuidParse (s : List Nat) : Except String (List Nat) :=
  if s.length = 36 then parseCanonical s
  else if s.length = 45 then
    if (s.take 9).map toLowerByte = urnUuidBytes then parseCanonical (s.drop 9)
    else .error "invalid urn prefix"
  else if s.length = 38 then parseCanonical (s.drop 1)
  else if s.length = 32 then
    match parseHexPositions s compactPositions with
    | some u => .ok u
    | none => .error "invalid UUID format"
  else .error ("invalid UUID length: " ++ toString s.length)

/-- `UUID.Version()`: the high nibble of byte 6. -/
def uuidVersion (u : List Nat) : Nat := u.getD 6 0 / 16

/-- UTF-8 encoding of one character (Go strings are UTF-8 byte strings). -/
def utf8Bytes (c : Char) : List Nat :=
  let n := c.toNat
  if n < 128 then [n]
  else if n < 2048 then [192 + n / 64, 128 + n % 64]
  else if n < 65536 then [224 + n / 4096, 128 + n / 64 % 64, 128 + n % 64]
  else [240 + n / 262144, 128 + n / 4096 % 64, 128 + n / 64 % 64, 128 + n % 64]

/-- The UTF-8 bytes of a string, i.e. what Go's `len` and indexing see. -/
def strBytes (s : String) : List Nat := s.data.flatMap utf8Bytes

/-- `model.RunID`: a string run identifier. -/
abbrev RunID := String

/-- `RunID.Validate` from `ingestion-go/internal/model`: empty check, then
`uuid.Parse`, then the version-7 check; `none` means valid. -/
def RunID.Validate (r : RunID) : Option GoError :=
  if r = "" then some (.validationError "run-id cannot be empty")
  else
    match uuidParse (strBytes r) with
    | .error m => some (.wrapped "run-id must be a valid UUID" (.validationError m))
    | .ok u =>
      if uuidVersion u = 7 then none
      else some (.validationError ("run-id must be a UUIDv7, got v" ++ toString (uuidVersion u)))

/-- `ingestion.FetchRequest`: dataset name plus date. -/
structure FetchRequest where
  Dataset : String
  Date : GoDate
  deriving DecidableEq, Repr

/-- Observable calls Ingest makes on its collaborators, in order. -/
inductive IngestEffect where
  | fetchCall (dataset : String) (date : GoDate)
  | putCall (key : String) (body : String)
  deriving DecidableEq, Repr

/-- The Fetcher and ObjectStorage collaborators of `ingestion.Service`. -/
structure IngestEnv where
  fetch : FetchRequest → Except GoError FetchResult
  put : String → String → Option GoError

/-- `Service.Ingest` from `ingestion-go/internal/ingestion`: validate the run
id, fetch, build the object key, store; the second component records which
collaborator calls were made. -/
def Service.Ingest (env : IngestEnv) (req : FetchRequest) (runID : RunID) :
    Option GoError × List IngestEffect :=
  match RunID.Validate runID with
  | some e => (some e, [])
  | none =>
    match env.fetch req with
    | .error e => (some (.wrapped "fetch" e), [.fetchCall req.Dataset req.Date])
    | .ok result =>
      let key := (ObjectKey.mk result.Source req.Dataset req.Date.format runID result.Extension).Key
      match env.put key result.Body with
      | some e =>
          (some (.wrapped "store" e),
            [.fetchCall req.Dataset req.Date, .putCall key result.Body])
      | none => (none, [.fetchCall req.Dataset req.Date, .putCall key result.Body])

/-- `domain.GridValue` from the serving layer. -/
structure GridValue where
  Value : Rat
  Unit : String
  Lat : Rat
  Lon : Rat
  Timestamp : Nat
  CatalogID : String
  deriving DecidableEq, Repr

/-- `domain.VariableResult`. -/
structure VariableResult where
  Name : String
  Value : Rat
  Unit : String
  Timestamp : Nat
  Lat : Rat
  Lon : Rat
  CatalogID : String
  deriving DecidableEq, Repr, Inhabited

/-- The `domain.GridStore` collaborator as a (deterministic) lookup. -/
def GridStore := String → Nat → Rat → Rat → Except GoError GridValue

/-- `Service.getVariable` from the serving domain: `errors.Is` against
`ErrGridValueNotFound` becomes a named `ErrVariableNotFound`; other errors are
wrapped with `fmt.Errorf("getting variable %q: %w", ...)`. -/
def Service.getVariable (store : GridStore) (name : String) (ts : Nat) (lat lon : Rat) :
    Except GoError VariableResult :=
  match store name ts lat lon with
  | .error err =>
    if err.causeChain.contains .gridNotFound then
      .error (.varNotFound name ts lat lon)
    else
      .error (.wrapped ("getting variable \"" ++ name ++ "\"") err)
  | .ok gv => .ok ⟨name, gv.Value, gv.Unit, gv.Timestamp, gv.Lat, gv.Lon, gv.CatalogID⟩

/-- The per-slot outcomes of the goroutines `GetVariables` launches, indexed
by request position. -/
def lookupOutcomes (store : GridStore) (ts : Nat) (lat lon : Rat) (vars : List String) :
    List (Except GoError VariableResult) :=
  vars.map fun v => Service.getVariable store v ts lat lon

/-- The error component of one goroutine's outcome. -/
def errOf : Except GoError VariableResult → Option GoError
  | .error e => some e
  | .ok _ => none

/-- The result slot written by one successful goroutine. -/
def okOf : Except GoError VariableResult → VariableResult
  | .ok r => r
  | .error _ => default

/-- `errgroup.Group.Wait`: the first error in goroutine completion order
(`order` lists slot indices in completion order). -/
def waitFirstError (outcomes : List (Except GoError VariableResult)) (order : List Nat) :
    Option GoError :=
  order.findSome? fun i => outcomes[i]?.bind errOf

/-- `Service.GetVariables` from the serving domain: one lookup per requested
variable into a pre-allocated slot, `g.Wait()` returning the first error in
completion order, and the slots in request order on success. -/
def Service.GetVariables (store : GridStore) (ts : Nat) (lat lon : Rat)
    (vars : List String) (order : List Nat) : Except GoError (List VariableResult) :=
  let outcomes := lookupOutcomes store ts lat lon vars
  match waitFirstError outcomes order with
  | some e => .error e
  | none => .ok (outcomes.map okOf)

/-- One row of the ClickHouse `grid_data` table (as visible through `FINAL`). -/
structure GridRow where
  varName : String
  timestamp : Nat
  lat : Rat
  lon : Rat
  value : Rat
  unit : String
  catalogID : String
  deriving DecidableEq, Repr

/-- The `ORDER BY` expression of `Client.GetValue`:
`(lat - @lat)*(lat - @lat) + (lon - @lon)*(lon - @lon)`. -/
def sqDist (lat lon : Rat) (r : GridRow) : Rat :=
  (r.lat - lat) * (r.lat - lat) + (r.lon - lon) * (r.lon - lon)

/-- The inner subquery's candidate set: rows of the variable with timestamp
at or before the requested one. -/
def atOrBefore (table : List GridRow) (v : String) (ts : Nat) : List GridRow :=
  table.filter fun r => r.varName == v && decide (r.timestamp ≤ ts)

/-- `SELECT max(timestamp) ...`: ClickHouse `max` over an empty set yields the
type's default value 0. -/
def maxTimestamp (table : List GridRow) (v : String) (ts : Nat) : Nat :=
  ((atOrBefore table v ts).map GridRow.timestamp).foldl max 0

/-- `ORDER BY sqDist LIMIT 1`: the first row attaining the minimal distance. -/
def selectNearest (lat lon : Rat) (rows : List GridRow) : Option GridRow :=
  rows.foldl
    (fun acc r =>
      match acc with
      | none => some r
      | some m => if sqDist lat lon r < sqDist lat lon m then some r else some m)
    none

/-- `clickhouse.Client.GetValue` from `serving-go`: rows of the variable at
the maximal timestamp at or before the requested one, nearest first; an empty
result set (`sql.ErrNoRows`) becomes `ErrGridValueNotFound`. -/
def Client.GetValue (table : List GridRow) (v : String) (ts : Nat) (lat lon : Rat) :
    Except GoError GridValue :=
  match selectNearest lat lon
      (table.filter fun r => r.varName == v && decide (r.timestamp = maxTimestamp table v ts)) with
  | none => .error .gridNotFound
  | some r => .ok ⟨r.value, r.unit, r.lat, r.lon, r.timestamp, r.catalogID⟩

/-! ## Helper lemmas -/

theorem stringDataInj {a b : String} (h : a.data = b.data) : a = b := by
  cases a; cases b; exact congrArg String.mk h

theorem waitFirstError_nil (order : List Nat) : waitFirstError [] order = none := by
  induction order with
  | nil => rfl
  | cons i rest ih => simp only [waitFirstError, List.findSome?_cons] at ih ⊢; simp [ih]

/-! ## C7: object key determinism and run-id injectivity -/

/-- C7: `ObjectKey.Key` is a pure deterministic function of its five fields —
equal fields render equal strings — and for any fixed (source, dataset, date,
extension), two different run identifiers render different key strings. -/
theorem objectKey_key_deterministic_injective :
    (∀ k₁ k₂ : ObjectKey, k₁.Source = k₂.Source → k₁.Dataset = k₂.Dataset →
      k₁.Date = k₂.Date → k₁.RunID = k₂.RunID → k₁.Extension = k₂.Extension →
      k₁.Key = k₂.Key) ∧
    (∀ s d dt ex r₁ r₂, r₁ ≠ r₂ →
      ObjectKey.Key ⟨s, d, dt, r₁, ex⟩ ≠ ObjectKey.Key ⟨s, d, dt, r₂, ex⟩) := by
  constructor
  · intro k₁ k₂ h1 h2 h3 h4 h5
    unfold ObjectKey.Key
    rw [h1, h2, h3, h4, h5]
  · intro s d dt ex r₁ r₂ hne heq
    apply hne
    unfold ObjectKey.Key at heq
    have hd := congrArg String.data heq
    simp only [String.data_append, List.append_assoc] at hd
    have hd1 := List.append_cancel_left hd
    have hd2 := List.append_cancel_left hd1
    have hd3 := List.append_cancel_left hd2
    have hd4 := List.append_cancel_left hd3
    have hd5 := List.append_cancel_left hd4
    have hd6 := List.append_cancel_left hd5
    rw [← List.append_assoc, ← List.append_assoc] at hd6
    exact stringDataInj (List.append_cancel_right (List.append_cancel_right hd6))

/-- C7 witness: two concrete run identifiers differing in one character give
distinct keys for the same source, dataset, date and extension. -/
theorem objectKey_key_deterministic_injective_witness :
    ObjectKey.Key ⟨"ads", "cams-europe-air-quality-forecasts-analysis", "2025-03-12",
        "01890c24-905b-7122-b170-b60814e6ee06", "grib"⟩ ≠
      ObjectKey.Key ⟨"ads", "cams-europe-air-quality-forecasts-analysis", "2025-03-12",
        "01890c24-905b-7122-b170-b60814e6ee07", "grib"⟩ :=
  objectKey_key_deterministic_injective.2 _ _ _ _ _ _ (by decide)

/-! ## C1: poll loop terminal-state handling -/

/-- C1 counterexample: a job reported `dismissed` does not terminate the poll
loop with a job-failed error — the loop polls again (a later `successful`
response is still consumed) and a job that stays `dismissed` runs into the
deadline error instead. -/
theorem waitForCompletion_dismissed_not_terminal :
    waitForCompletion "job-1" [.ok ⟨"job-1", .dismissed⟩] = .error .deadlineExceeded ∧
    GoError.deadlineExceeded ≠ .jobFailed "job-1" .dismissed ∧
    waitForCompletion "job-1" [.ok ⟨"job-1", .dismissed⟩, .ok ⟨"job-1", .successful⟩] =
      .ok ⟨"job-1", .successful⟩ :=
  ⟨rfl, by decide, rfl⟩

/-- C1 (amended): the poll loop stops on `successful` (returning the job) and
on `failed` or `rejected` (failing with a job-failed error naming the job id
and the state); `dismissed`, like `accepted` and `running`, is not terminal —
the loop polls again, and an exhausted deadline yields the deadline error. -/
theorem waitForCompletion_terminal_classification (id : String) (job : JobResponse)
    (rest : List (Except GoError JobResponse)) :
    (job.status = .successful → waitForCompletion id (.ok job :: rest) = .ok job) ∧
    (∀ st, job.status = st → st = .failed ∨ st = .rejected →
      waitForCompletion id (.ok job :: rest) = .error (.jobFailed id st)) ∧
    (job.status = .accepted ∨ job.status = .running ∨ job.status = .dismissed →
      waitForCompletion id (.ok job :: rest) = waitForCompletion id rest) ∧
    waitForCompletion id [] = .error .deadlineExceeded := by
  obtain ⟨jid, st⟩ := job
  refine ⟨?_, ?_, ?_, rfl⟩
  · rintro rfl
    rfl
  · rintro st rfl (rfl | rfl) <;> rfl
  · rintro (rfl | rfl | rfl) <;> rfl

/-- C1 witness: the classification applied to a concrete `failed` poll. -/
theorem waitForCompletion_terminal_classification_witness :
    waitForCompletion "fail-123" [.ok ⟨"fail-123", .failed⟩] =
      .error (.jobFailed "fail-123" .failed) :=
  (waitForCompletion_terminal_classification "fail-123" ⟨"fail-123", .failed⟩ []).2.1
    .failed rfl (Or.inl rfl)

/-! ## C3: error wrapping in fetchInternal -/

/-- C3 counterexample: when submission fails with a remote 500 API error, the
error Fetch reports is a `ClientError` that only carries a message string; the
original `apiError` (and its status code) is not reachable by unwrapping. -/
theorem fetchInternal_discards_cause :
    fetchInternal ⟨.error (.apiError 500 "execute request failed"), [],
        fun _ => .error .deadlineExceeded, fun _ => .error .deadlineExceeded⟩ =
      .error (.clientError
        "failed to submit execute request: cds: execute request failed (status 500)") ∧
    GoError.apiErrorReachable (.clientError
        "failed to submit execute request: cds: execute request failed (status 500)") = false ∧
    GoError.unwrapOne (.clientError
        "failed to submit execute request: cds: execute request failed (status 500)") = none :=
  ⟨rfl, rfl, rfl⟩

/-- C3 (amended): every failing inner step of Fetch is wrapped into a
`ClientError` whose message identifies the failing step and embeds the inner
error's rendered message — but the inner error value is discarded, so nothing
(in particular no remote status code) is reachable by unwrapping. -/
theorem fetchInternal_error_wrapping (env : CdsEnv) :
    (∀ e, env.submit = .error e →
      fetchInternal env =
        .error (.clientError ("failed to submit execute request: " ++ e.message))) ∧
    (∀ job e, env.submit = .ok job →
      waitForCompletion job.jobID env.polls = .error e →
      fetchInternal env =
        .error (.clientError ("failed to wait for job completion: " ++ e.message))) ∧
    (∀ job cj e, env.submit = .ok job →
      waitForCompletion job.jobID env.polls = .ok cj →
      env.results cj.jobID = .error e →
      fetchInternal env =
        .error (.clientError ("failed to get job results: " ++ e.message))) ∧
    (∀ job cj rr e, env.submit = .ok job →
      waitForCompletion job.jobID env.polls = .ok cj →
      env.results cj.jobID = .ok rr →
      env.download rr.href = .error e →
      fetchInternal env =
        .error (.clientError ("failed to download asset: " ++ e.message))) ∧
    (∀ e, fetchInternal env = .error e → e.unwrapOne = none ∧ e.causeChain = [e]) := by
  refine ⟨?_, ?_, ?_, ?_, ?_⟩
  · intro e h
    simp [fetchInternal, h, toClientError]
  · intro job e hs hw
    simp [fetchInternal, hs, hw, toClientError]
  · intro job cj e hs hw hr
    simp [fetchInternal, hs, hw, hr, toClientError]
  · intro job cj rr e hs hw hr hdl
    simp [fetchInternal, hs, hw, hr, hdl, toClientError]
  · intro e h
    unfold fetchInternal at h
    split at h
    · cases h
      exact ⟨rfl, rfl⟩
    · split at h
      · cases h
        exact ⟨rfl, rfl⟩
      · split at h
        · cases h
          exact ⟨rfl, rfl⟩
        · split at h
          · cases h
            exact ⟨rfl, rfl⟩
          · cases h

/-- C3 witness: the wrapping shape applied to a concrete failing download. -/
theorem fetchInternal_error_wrapping_witness :
    fetchInternal ⟨.ok ⟨"test-123", .accepted⟩, [.ok ⟨"test-123", .successful⟩],
        fun _ => .ok ⟨"application/x-netcdf", "http://host/download/test-123"⟩,
        fun _ => .error (.apiError 403 "failed to download asset")⟩ =
      .error (.clientError ("failed to download asset: " ++
        GoError.message (.apiError 403 "failed to download asset"))) :=
  (fetchInternal_error_wrapping _).2.2.2.1 ⟨"test-123", .accepted⟩
    ⟨"test-123", .successful⟩ ⟨"application/x-netcdf", "http://host/download/test-123"⟩
    _ rfl rfl rfl rfl

/-! ## C10: hardcoded provenance -/

/-- C10: every successful Fetch reports provenance Source `"ads"` and
Extension `"grib"` unconditionally, even though the request payload asks the
remote API for data_format `"netcdf_zip"` in both valid variants; hence every
object key built from this adapter's extension ends in `".grib"`. -/
theorem fetch_hardcoded_provenance :
    (∀ env res, Client.Fetch env = .ok res → res.Source = "ads" ∧ res.Extension = "grib") ∧
    (∀ d af, af = "analysis" ∨ af = "forecast" →
      ∃ body, CAMSRequest.Payload ⟨d, af⟩ = some body ∧
        body.inputs.dataFormat = "netcdf_zip") ∧
    (∀ k : ObjectKey, k.Extension = "grib" → ∃ p, k.Key = p ++ ".grib") := by
  refine ⟨?_, ?_, ?_⟩
  · intro env res h
    unfold Client.Fetch at h
    split at h
    · cases h
    · cases h
      exact ⟨rfl, rfl⟩
  · rintro d af (rfl | rfl)
    · exact ⟨_, rfl, rfl⟩
    · exact ⟨_, rfl, rfl⟩
  · intro k hext
    unfold ObjectKey.Key
    rw [hext]
    exact ⟨k.Source ++ "/" ++ k.Dataset ++ "/" ++ k.Date ++ "/" ++ k.RunID,
      by rw [String.append_assoc]; congr 1⟩

/-- C10 witness: a concrete successful fetch carries the hardcoded
provenance. -/
theorem fetch_hardcoded_provenance_witness :
    FetchResult.Source ⟨"fake netcdf data", "ads", "grib"⟩ = "ads" ∧
    FetchResult.Extension ⟨"fake netcdf data", "ads", "grib"⟩ = "grib" :=
  fetch_hardcoded_provenance.1
    ⟨.ok ⟨"test-123", .accepted⟩, [.ok ⟨"test-123", .successful⟩],
      fun _ => .ok ⟨"application/x-netcdf", "http://host/download/test-123"⟩,
      fun _ => .ok "fake netcdf data"⟩
    ⟨"fake netcdf data", "ads", "grib"⟩ rfl

/-! ## C2: empty variable list -/

/-- C2 counterexample: with an empty variable list, `GetVariables` returns a
trivial empty-list success and consults no lookup, instead of rejecting the
request with a caller error. -/
theorem getVariables_empty_trivial_success :
    Service.GetVariables (fun _ _ _ _ => .error .gridNotFound) 0 0 0 [] [] = .ok [] ∧
    lookupOutcomes (fun _ _ _ _ => .error .gridNotFound) 0 0 0 [] = [] :=
  ⟨rfl, rfl⟩

/-- C2 (amended): `GetVariables` called with an empty variable list starts no
lookup and returns the empty result list with no error — a trivial empty
success, not a validation error. -/
theorem getVariables_empty_no_lookup (store : GridStore) (ts : Nat) (lat lon : Rat)
    (order : List Nat) :
    Service.GetVariables store ts lat lon [] order = .ok [] ∧
    lookupOutcomes store ts lat lon [] = [] := by
  constructor
  · simp [Service.GetVariables, lookupOutcomes, waitFirstError_nil]
  · rfl

theorem waitFirstError_of_no_error (outcomes : List (Except GoError VariableResult))
    (order : List Nat) (h : ∀ i ∈ order, outcomes[i]?.bind errOf = none) :
    waitFirstError outcomes order = none := by
  induction order with
  | nil => rfl
  | cons i rest ih =>
    simp only [waitFirstError, List.findSome?_cons, h i (List.mem_cons_self i rest)]
    exact ih fun i hi => h i (List.mem_cons_of_mem _ hi)

theorem waitFirstError_of_single_error (outcomes : List (Except GoError VariableResult))
    (order : List Nat) (j : Nat) (e : GoError)
    (hj : outcomes[j]?.bind errOf = some e)
    (hothers : ∀ i, i ≠ j → outcomes[i]?.bind errOf = none)
    (hmem : j ∈ order) :
    waitFirstError outcomes order = some e := by
  induction order with
  | nil => cases hmem
  | cons i rest ih =>
    by_cases hij : i = j
    · subst hij
      simp only [waitFirstError, List.findSome?_cons, hj]
    · simp only [waitFirstError, List.findSome?_cons, hothers i hij]
      exact ih ((List.mem_cons.mp hmem).resolve_left fun hji => hij hji.symm)

theorem lookupOutcomes_getElem (store : GridStore) (ts : Nat) (lat lon : Rat)
    (vars : List String) (i : Nat) :
    (lookupOutcomes store ts lat lon vars)[i]? =
      vars[i]?.map fun v => Service.getVariable store v ts lat lon :=
  List.getElem?_map _ vars i

/-! ## C4: all-or-nothing on a missing variable -/

/-- C4: when one requested variable's point-store lookup reports not-found and
every other requested variable's lookup succeeds, GetVariables returns no
result list at all — only the error naming that variable together with the
requested timestamp and coordinates — whatever the completion order. -/
theorem getVariables_all_or_nothing (store : GridStore) (ts : Nat) (lat lon : Rat)
    (vars : List String) (order : List Nat) (j : Nat) (vj : String)
    (horder : ∀ i, i < vars.length → i ∈ order)
    (hj : vars[j]? = some vj)
    (hnf : store vj ts lat lon = .error .gridNotFound)
    (hothers : ∀ i v, i ≠ j → vars[i]? = some v →
      ∃ r, Service.getVariable store v ts lat lon = .ok r) :
    Service.GetVariables store ts lat lon vars order =
      .error (.varNotFound vj ts lat lon) := by
  have hjout : (lookupOutcomes store ts lat lon vars)[j]?.bind errOf =
      some (.varNotFound vj ts lat lon) := by
    rw [lookupOutcomes_getElem, hj]
    simp [Service.getVariable, hnf, GoError.causeChain, errOf]
  have hoth : ∀ i, i ≠ j → (lookupOutcomes store ts lat lon vars)[i]?.bind errOf = none := by
    intro i hij
    rw [lookupOutcomes_getElem]
    cases hv : vars[i]? with
    | none => rfl
    | some v =>
      obtain ⟨r, hr⟩ := hothers i v hij hv
      simp [hr, errOf]
  have hwait : waitFirstError (lookupOutcomes store ts lat lon vars) order =
      some (.varNotFound vj ts lat lon) :=
    waitFirstError_of_single_error _ _ j _ hjout hoth
      (horder j (List.getElem?_eq_some.mp hj).1)
  simp only [Service.GetVariables, hwait]

/-- C4 witness: variables `[pm2p5, pm10]` where `pm2p5` resolves and `pm10`
does not, with `pm10`'s goroutine finishing first. -/
theorem getVariables_all_or_nothing_witness :
    Service.GetVariables
        (fun v _ _ _ =>
          if v = "pm2p5" then .ok ⟨1, "u", 0, 0, 5, "cat"⟩ else .error .gridNotFound)
        10 0 0 ["pm2p5", "pm10"] [1, 0] =
      .error (.varNotFound "pm10" 10 0 0) := by
  refine getVariables_all_or_nothing _ 10 0 0 ["pm2p5", "pm10"] [1, 0] 1 "pm10"
    (by decide) rfl rfl ?_
  intro i v hne hget
  match i with
  | 0 =>
    cases hget
    exact ⟨_, rfl⟩
  | 1 => exact absurd rfl hne
  | n + 2 => cases hget

/-! ## C5: request-order results on universal success -/

/-- C5: when every lookup succeeds, GetVariables returns one VariableResult
per requested variable, at the index the variable occupies in the request —
for any completion order — with duplicate names each looked up independently
into their own slot. -/
theorem getVariables_request_order (store : GridStore) (ts : Nat) (lat lon : Rat)
    (vars : List String) (order : List Nat)
    (hok : ∀ v ∈ vars, ∃ r, Service.getVariable store v ts lat lon = .ok r) :
    ∃ rs, Service.GetVariables store ts lat lon vars order = .ok rs ∧
      rs.length = vars.length ∧
      ∀ (i : Nat) (v : String) (r : VariableResult), vars[i]? = some v →
        Service.getVariable store v ts lat lon = .ok r → rs[i]? = some r := by
  have hnone : ∀ i ∈ order, (lookupOutcomes store ts lat lon vars)[i]?.bind errOf = none := by
    intro i _
    rw [lookupOutcomes_getElem]
    cases hv : vars[i]? with
    | none => rfl
    | some v =>
      obtain ⟨r, hr⟩ := hok v (List.getElem?_mem hv)
      simp [hr, errOf]
  refine ⟨(lookupOutcomes store ts lat lon vars).map okOf, ?_, ?_, ?_⟩
  · simp only [Service.GetVariables, waitFirstError_of_no_error _ _ hnone]
  · simp [lookupOutcomes]
  · intro i v r hv hr
    rw [List.getElem?_map, lookupOutcomes_getElem, hv]
    simp [hr, okOf]

/-- C5 witness: a duplicate-containing request `[pm2p5, pm10, pm2p5]` under a
scrambled completion order still yields results in request order. -/
theorem getVariables_request_order_witness :
    ∃ rs, Service.GetVariables
        (fun v ts _ _ => .ok ⟨1, "u", 0, 0, ts, v⟩) 5 0 0
        ["pm2p5", "pm10", "pm2p5"] [2, 0, 1] = .ok rs ∧
      rs.length = ["pm2p5", "pm10", "pm2p5"].length ∧
      ∀ (i : Nat) (v : String) (r : VariableResult), ["pm2p5", "pm10", "pm2p5"][i]? = some v →
        Service.getVariable (fun v ts _ _ => .ok ⟨1, "u", 0, 0, ts, v⟩) v 5 0 0 = .ok r →
        rs[i]? = some r :=
  getVariables_request_order _ 5 0 0 _ _ fun _ _ => ⟨_, rfl⟩

/-! ## C9: Ingest short-circuits on an invalid run id -/

/-- C9: when the run identifier fails validation, Ingest returns that
validation error and makes no collaborator call at all — the Fetcher and the
ObjectStorage are never invoked. -/
theorem ingest_short_circuit (env : IngestEnv) (req : FetchRequest) (runID : RunID)
    (e : GoError) (hval : RunID.Validate runID = some e) :
    Service.Ingest env req runID = (some e, []) := by
  simp only [Service.Ingest, hval]

/-- C9 witness: the invalid run id from the repository's own tests
short-circuits a concrete Ingest call. -/
theorem ingest_short_circuit_witness :
    Service.Ingest
        ⟨fun _ => .ok ⟨"hello", "ads", "grib"⟩, fun _ _ => none⟩
        ⟨"cams-europe-air-quality-forecasts-analysis", ⟨2025, 3, 12⟩⟩ "not-a-uuid" =
      (some (.wrapped "run-id must be a valid UUID"
        (.validationError "invalid UUID length: 10")), []) :=
  ingest_short_circuit _ _ "not-a-uuid" _ rfl

/-! ## Helper lemmas for the point-store query -/

theorem le_foldl_max (l : List Nat) (a : Nat) : a ≤ l.foldl max a := by
  induction l generalizing a with
  | nil => exact le_refl a
  | cons x xs ih => exact le_trans (le_max_left a x) (ih (max a x))

theorem mem_le_foldl_max (l : List Nat) (a x : Nat) (hx : x ∈ l) : x ≤ l.foldl max a := by
  induction l generalizing a with
  | nil => cases hx
  | cons y ys ih =>
    rw [List.foldl_cons]
    rcases List.mem_cons.mp hx with rfl | h
    · exact le_trans (le_max_right a x) (le_foldl_max ys (max a x))
    · exact ih (max a y) h

theorem foldl_max_mem (l : List Nat) (a : Nat) : l.foldl max a = a ∨ l.foldl max a ∈ l := by
  induction l generalizing a with
  | nil => exact Or.inl rfl
  | cons x xs ih =>
    rcases ih (max a x) with h | h
    · rcases max_choice a x with hm | hm
      · exact Or.inl (by rw [List.foldl_cons, h, hm])
      · refine Or.inr ?_
        rw [List.foldl_cons, h, hm]
        exact List.mem_cons_self x xs
    · exact Or.inr (List.mem_cons_of_mem x h)

theorem foldl_max_zero_mem (l : List Nat) (hl : l ≠ []) : l.foldl max 0 ∈ l := by
  rcases foldl_max_mem l 0 with h | h
  · obtain ⟨x, xs, rfl⟩ := List.exists_cons_of_ne_nil hl
    have hx : x ≤ (x :: xs).foldl max 0 :=
      mem_le_foldl_max (x :: xs) 0 x (List.mem_cons_self x xs)
    rw [h] at hx
    rw [h, ← Nat.le_zero.mp hx]
    exact List.mem_cons_self x xs
  · exact h

theorem selectNearest_step (lat lon : Rat) (rows : List GridRow) (m : GridRow) :
    ∃ r, rows.foldl
        (fun acc r =>
          match acc with
          | none => some r
          | some m => if sqDist lat lon r < sqDist lat lon m then some r else some m)
        (some m) = some r ∧
      (r = m ∨ r ∈ rows) ∧ sqDist lat lon r ≤ sqDist lat lon m ∧
      ∀ x ∈ rows, sqDist lat lon r ≤ sqDist lat lon x := by
  induction rows generalizing m with
  | nil => exact ⟨m, rfl, Or.inl rfl, le_refl _, by intro x hx; cases hx⟩
  | cons x xs ih =>
    by_cases hc : sqDist lat lon x < sqDist lat lon m
    · obtain ⟨r, heq, hin, hle, hall⟩ := ih x
      refine ⟨r, by simpa [hc] using heq, ?_, le_of_lt (lt_of_le_of_lt hle hc), ?_⟩
      · rcases hin with rfl | h
        · exact Or.inr (List.mem_cons_self r xs)
        · exact Or.inr (List.mem_cons_of_mem x h)
      · intro y hy
        rcases List.mem_cons.mp hy with rfl | h
        · exact hle
        · exact hall y h
    · obtain ⟨r, heq, hin, hle, hall⟩ := ih m
      refine ⟨r, by simpa [hc] using heq, ?_, hle, ?_⟩
      · rcases hin with rfl | h
        · exact Or.inl rfl
        · exact Or.inr (List.mem_cons_of_mem x h)
      · intro y hy
        rcases List.mem_cons.mp hy with rfl | h
        · exact le_trans hle (not_lt.mp hc)
        · exact hall y h

theorem selectNearest_none_iff (lat lon : Rat) (rows : List GridRow) :
    selectNearest lat lon rows = none ↔ rows = [] := by
  cases rows with
  | nil => exact ⟨fun _ => rfl, fun _ => rfl⟩
  | cons x xs =>
    constructor
    · intro h
      obtain ⟨r, heq, -, -, -⟩ := selectNearest_step lat lon xs x
      rw [show selectNearest lat lon (x :: xs) =
        xs.foldl _ (some x) from rfl] at h
      rw [heq] at h
      cases h
    · intro h
      cases h

theorem selectNearest_min (lat lon : Rat) (rows : List GridRow) (r : GridRow)
    (h : selectNearest lat lon rows = some r) :
    r ∈ rows ∧ ∀ x ∈ rows, sqDist lat lon r ≤ sqDist lat lon x := by
  cases rows with
  | nil => cases h
  | cons x xs =>
    obtain ⟨r', heq, hin, hle, hall⟩ := selectNearest_step lat lon xs x
    rw [show selectNearest lat lon (x :: xs) = xs.foldl _ (some x) from rfl, heq] at h
    have hrr : r' = r := by injection h
    rw [hrr] at hin hle hall
    constructor
    · rcases hin with rfl | hmem
      · exact List.mem_cons_self _ _
      · exact List.mem_cons_of_mem x hmem
    · intro y hy
      rcases List.mem_cons.mp hy with rfl | hmem
      · exact hle
      · exact hall y hmem

theorem mem_atOrBefore (table : List GridRow) (v : String) (ts : Nat) (r : GridRow) :
    r ∈ atOrBefore table v ts ↔ r ∈ table ∧ r.varName = v ∧ r.timestamp ≤ ts := by
  simp [atOrBefore, List.mem_filter, and_assoc]

theorem maxTimestamp_le (table : List GridRow) (v : String) (ts : Nat) (r : GridRow)
    (hr : r ∈ table) (hv : r.varName = v) (hts : r.timestamp ≤ ts) :
    r.timestamp ≤ maxTimestamp table v ts :=
  mem_le_foldl_max _ 0 r.timestamp
    (List.mem_map_of_mem GridRow.timestamp ((mem_atOrBefore table v ts r).mpr ⟨hr, hv, hts⟩))

theorem maxTimestamp_attained (table : List GridRow) (v : String) (ts : Nat)
    (hne : atOrBefore table v ts ≠ []) :
    ∃ r ∈ atOrBefore table v ts, r.timestamp = maxTimestamp table v ts := by
  have hmem : maxTimestamp table v ts ∈ (atOrBefore table v ts).map GridRow.timestamp :=
    foldl_max_zero_mem _ (by simpa using hne)
  obtain ⟨r, hr, hts⟩ := List.mem_map.mp hmem
  exact ⟨r, hr, hts⟩

/-! ## C6: point-store GetValue semantics -/

/-- C6: `GetValue` considers only samples of the variable with effective time
at or before the requested timestamp (never a future one), picks the maximal
such timestamp, resolves among the candidates at that timestamp by minimal
squared distance in (lat, lon) space, and reports the distinguished not-found
error exactly when no sample at or before the requested time exists. -/
theorem getValue_spec (table : List GridRow) (v : String) (ts : Nat) (lat lon : Rat) :
    (Client.GetValue table v ts lat lon = .error .gridNotFound ↔
      ∀ r ∈ table, ¬(r.varName = v ∧ r.timestamp ≤ ts)) ∧
    (∀ g, Client.GetValue table v ts lat lon = .ok g →
      ∃ r, r ∈ table ∧ r.varName = v ∧ r.timestamp ≤ ts ∧
        g = ⟨r.value, r.unit, r.lat, r.lon, r.timestamp, r.catalogID⟩ ∧
        (∀ r' ∈ table, r'.varName = v → r'.timestamp ≤ ts → r'.timestamp ≤ r.timestamp) ∧
        (∀ r' ∈ table, r'.varName = v → r'.timestamp = r.timestamp →
          sqDist lat lon r ≤ sqDist lat lon r')) := by
  have hrowsmem : ∀ r : GridRow,
      r ∈ table.filter (fun r => r.varName == v && decide (r.timestamp = maxTimestamp table v ts)) ↔
        r ∈ table ∧ r.varName = v ∧ r.timestamp = maxTimestamp table v ts := by
    intro r
    simp [List.mem_filter, and_assoc]
  have hcand_rows : atOrBefore table v ts ≠ [] →
      table.filter (fun r => r.varName == v && decide (r.timestamp = maxTimestamp table v ts)) ≠
        [] := by
    intro hcne hnil
    obtain ⟨rm, hrm, hrts⟩ := maxTimestamp_attained table v ts hcne
    obtain ⟨hrm_tab, hrm_v, -⟩ := (mem_atOrBefore table v ts rm).mp hrm
    have : rm ∈ table.filter
        (fun r => r.varName == v && decide (r.timestamp = maxTimestamp table v ts)) :=
      (hrowsmem rm).mpr ⟨hrm_tab, hrm_v, hrts⟩
    rw [hnil] at this
    cases this
  constructor
  · constructor
    · intro h r hr hprop
      have hcne : atOrBefore table v ts ≠ [] := by
        intro hnil
        have : r ∈ atOrBefore table v ts :=
          (mem_atOrBefore table v ts r).mpr ⟨hr, hprop.1, hprop.2⟩
        rw [hnil] at this
        cases this
      unfold Client.GetValue at h
      rcases hsel : selectNearest lat lon (table.filter
          (fun r => r.varName == v && decide (r.timestamp = maxTimestamp table v ts))) with
        _ | rsel
      · exact hcand_rows hcne ((selectNearest_none_iff lat lon _).mp hsel)
      · rw [hsel] at h
        cases h
    · intro hnone
      have hab : atOrBefore table v ts = [] := by
        rw [atOrBefore, List.filter_eq_nil_iff]
        intro r hr hcond
        simp only [Bool.and_eq_true, beq_iff_eq, decide_eq_true_eq] at hcond
        exact hnone r hr hcond
      have hz : maxTimestamp table v ts = 0 := by
        unfold maxTimestamp
        rw [hab]
        rfl
      have hrows : table.filter
          (fun r => r.varName == v && decide (r.timestamp = maxTimestamp table v ts)) = [] := by
        rw [List.filter_eq_nil_iff]
        intro r hr hcond
        simp only [Bool.and_eq_true, beq_iff_eq, decide_eq_true_eq, hz] at hcond
        exact hnone r hr ⟨hcond.1, le_of_eq_of_le hcond.2 (Nat.zero_le ts)⟩
      unfold Client.GetValue
      rw [hrows]
      rfl
  · intro g hg
    unfold Client.GetValue at hg
    rcases hsel : selectNearest lat lon (table.filter
        (fun r => r.varName == v && decide (r.timestamp = maxTimestamp table v ts))) with
      _ | rsel
    · rw [hsel] at hg
      cases hg
    · rw [hsel] at hg
      obtain ⟨hrsel_rows, hmin⟩ := selectNearest_min lat lon _ rsel hsel
      obtain ⟨hrsel_tab, hrsel_v, hrsel_ts⟩ := (hrowsmem rsel).mp hrsel_rows
      have hts_le : rsel.timestamp ≤ ts := by
        by_cases hcne : atOrBefore table v ts = []
        · have hz : maxTimestamp table v ts = 0 := by
            unfold maxTimestamp
            rw [hcne]
            rfl
          rw [hrsel_ts, hz]
          exact Nat.zero_le ts
        · obtain ⟨rm, hrm, hrts⟩ := maxTimestamp_attained table v ts hcne
          obtain ⟨-, -, hrm_le⟩ := (mem_atOrBefore table v ts rm).mp hrm
          rw [hrsel_ts, ← hrts]
          exact hrm_le
      have hg' : g = ⟨rsel.value, rsel.unit, rsel.lat, rsel.lon, rsel.timestamp,
          rsel.catalogID⟩ := by
        injection hg with hg
        exact hg.symm
      refine ⟨rsel, hrsel_tab, hrsel_v, hts_le, hg', ?_, ?_⟩
      · intro r' hr' hv' hts'
        rw [hrsel_ts]
        exact maxTimestamp_le table v ts r' hr' hv' hts'
      · intro r' hr' hv' hts'
        exact hmin r' ((hrowsmem r').mpr ⟨hr', hv', hts'.trans hrsel_ts⟩)

/-- C6 witness: among two same-timestamp candidates the nearer one wins, a
future sample and another variable's sample are ignored. -/
theorem getValue_spec_witness :
    ∃ r, r ∈ ([⟨"pm2p5", 10, 1, 1, 5, "u", "a"⟩, ⟨"pm2p5", 20, 5, 5, 6, "u", "b"⟩,
        ⟨"pm2p5", 40, 0, 0, 7, "u", "c"⟩, ⟨"pm10", 20, 0, 0, 8, "u", "d"⟩,
        ⟨"pm2p5", 20, 9, 9, 9, "u", "e"⟩] : List GridRow) ∧
      r.varName = "pm2p5" ∧ r.timestamp ≤ 25 ∧
      (⟨6, "u", 5, 5, 20, "b"⟩ : GridValue) =
        ⟨r.value, r.unit, r.lat, r.lon, r.timestamp, r.catalogID⟩ ∧
      (∀ r' ∈ ([⟨"pm2p5", 10, 1, 1, 5, "u", "a"⟩, ⟨"pm2p5", 20, 5, 5, 6, "u", "b"⟩,
          ⟨"pm2p5", 40, 0, 0, 7, "u", "c"⟩, ⟨"pm10", 20, 0, 0, 8, "u", "d"⟩,
          ⟨"pm2p5", 20, 9, 9, 9, "u", "e"⟩] : List GridRow),
        r'.varName = "pm2p5" → r'.timestamp ≤ 25 → r'.timestamp ≤ r.timestamp) ∧
      (∀ r' ∈ ([⟨"pm2p5", 10, 1, 1, 5, "u", "a"⟩, ⟨"pm2p5", 20, 5, 5, 6, "u", "b"⟩,
          ⟨"pm2p5", 40, 0, 0, 7, "u", "c"⟩, ⟨"pm10", 20, 0, 0, 8, "u", "d"⟩,
          ⟨"pm2p5", 20, 9, 9, 9, "u", "e"⟩] : List GridRow),
        r'.varName = "pm2p5" → r'.timestamp = r.timestamp →
        sqDist 4 4 r ≤ sqDist 4 4 r') :=
  (getValue_spec _ "pm2p5" 25 4 4).2 ⟨6, "u", 5, 5, 20, "b"⟩
    (by simp [Client.GetValue, maxTimestamp, atOrBefore, selectNearest, sqDist]
        norm_num)

/-! ## C8: run-identifier validation -/

/-- C8: `RunID.Validate` succeeds exactly on strings that `uuid.Parse`
accepts with version 7; the repository's own test vectors (a valid UUIDv7,
the empty string, a malformed string, a UUIDv4) behave accordingly. -/
theorem runID_validate_uuidv7 :
    (∀ r : RunID, RunID.Validate r = none ↔
      ∃ u, uuidParse (strBytes r) = .ok u ∧ uuidVersion u = 7) ∧
    RunID.Validate "01890c24-905b-7122-b170-b60814e6ee06" = none ∧
    RunID.Validate "" = some (.validationError "run-id cannot be empty") ∧
    RunID.Validate "not-a-uuid" ≠ none ∧
    RunID.Validate "550e8400-e29b-41d4-a716-446655440000" ≠ none := by
  refine ⟨?_, by decide, by decide, by decide, by decide⟩
  intro r
  unfold RunID.Validate
  by_cases hr : r = ""
  · subst hr
    rw [if_pos rfl]
    simp [show uuidParse (strBytes "") = Except.error "invalid UUID length: 0" from rfl]
  · rw [if_neg hr]
    cases hp : uuidParse (strBytes r) with
    | error m => simp [hp]
    | ok u =>
      by_cases hv : uuidVersion u = 7
      · simp [hp, hv]
      · simp [hp, hv]

/-- C8 witness: the canonical UUIDv7 test vector validates. -/
theorem runID_validate_uuidv7_witness :
    RunID.Validate "01890c24-905b-7122-b170-b60814e6ee06" = none :=
  runID_validate_uuidv7.2.1

/-- C2 (amended) witness: a nonsense completion order makes no difference on
an empty request. -/
theorem getVariables_empty_no_lookup_witness :
    Service.GetVariables (fun _ _ _ _ => .error .gridNotFound) 7 1 2 [] [5, 5] = .ok [] :=
  (getVariables_empty_no_lookup (fun _ _ _ _ => .error .gridNotFound) 7 1 2 [5, 5]).1

end Jackfruit
